import Mathlib

/-!
Verification development for the gridiron ingestion and query core
(`src/ingest.py`, `src/query.py`): a shallow embedding of the
schema-driven normalizer, the partitioned writer and the pool query
engine, together with theorems settling the specified properties.
-/

set_option maxHeartbeats 1000000

namespace Gridiron

/-! ## Cells and data types

A normalized table holds typed cells.  The source works over polars
columns of dtype `Int64`, `Float64` or `String`; cells may be null.
Float values only ever arise in this development as exact decimal
literals (a schema default such as `0.0`, or a parsed decimal string),
so they are embedded exactly as a mantissa/scale pair `m * 10 ^ (-e)`
rather than as IEEE floats; no claim depends on float arithmetic. -/

inductive DType where
  | int64
  | float64
  | string
deriving DecidableEq, Repr

inductive Cell where
  | nullv
  | intv (i : Int)
  | floatv (m : Int) (e : Nat)
  | strv (s : String)
deriving DecidableEq, Repr

/-- Value of a decimal digit character, `none` for any other
character. -/
def charDigit (c : Char) : Option Nat :=
  if c.toNat ≥ 48 ∧ c.toNat ≤ 57 then some (c.toNat - 48) else none

/-- Parses a non-empty all-digit character sequence as a natural
number. -/
def digitsToNat : List Char → Option Nat
  | [] => none
  | l => l.foldl (fun acc c => acc.bind (fun n => (charDigit c).map (fun d => n * 10 + d))) (some 0)

/-- Parses an optionally negated digit sequence as an integer, the way
a strict text-to-int conversion does: anything else fails. -/
def parseIntChars : List Char → Option Int
  | '-' :: rest => (digitsToNat rest).map (fun n => -(n : Int))
  | l => (digitsToNat l).map (fun n => (n : Int))

/-- Splits a character sequence at its first dot, if any. -/
def breakAtDot : List Char → List Char × Option (List Char)
  | [] => ([], none)
  | c :: rest =>
    if c = '.' then ([], some rest)
    else
      let p := breakAtDot rest
      (c :: p.1, p.2)

def hasNegSign : List Char → Bool
  | '-' :: _ => true
  | _ => false

/-- Parses a decimal string such as `12`, `-3.5` into an exact decimal
cell.  Models the string-to-float conversion performed by a polars cast
to `Float64`; only the shapes sign+digits and sign+digits.digits are
accepted. -/
def parseDec (s : String) : Option Cell :=
  match breakAtDot s.data with
  | (a, none) => (parseIntChars a).map (fun i => Cell.floatv i 0)
  | (a, some b) =>
    match parseIntChars a, digitsToNat b with
    | some i, some f =>
      let scaled : Int := i * ((10 : Int) ^ b.length)
      some (if hasNegSign s.data then Cell.floatv (scaled - f) b.length
            else Cell.floatv (scaled + f) b.length)
    | _, _ => none

/-- Renders an exact decimal cell back to text, for casts to `String`. -/
def formatDec (m : Int) (e : Nat) : String :=
  toString m ++ (if e = 0 then "" else "e-" ++ toString e)

/-- Models a polars cast of one cell to a target dtype.  `none` means
the cast fails; the source uses the library's default STRICT cast
(`pl.col(...).cast(dtype)`, `ingest.py` line 34), under which a failed
cell conversion raises instead of producing null.  Casting a null cell
yields null for every dtype. -/
def castCell (dtype : DType) (c : Cell) : Option Cell :=
  match dtype, c with
  | _, Cell.nullv => some Cell.nullv
  | DType.int64, Cell.intv i => some (Cell.intv i)
  | DType.int64, Cell.strv s => (parseIntChars s.data).map Cell.intv
  | DType.int64, Cell.floatv m e => some (Cell.intv (m / ((10 : Int) ^ e)))
  | DType.float64, Cell.floatv m e => some (Cell.floatv m e)
  | DType.float64, Cell.intv i => some (Cell.floatv i 0)
  | DType.float64, Cell.strv s => parseDec s
  | DType.string, Cell.strv s => some (Cell.strv s)
  | DType.string, Cell.intv i => some (Cell.strv (toString i))
  | DType.string, Cell.floatv m e => some (Cell.strv (formatDec m e))

/-! ## Schema loading (`NGSIngestor.__init__`, `ingest.py` lines 11-17)

The constructor resolves the schema path, opens the file and runs
`yaml.safe_load` on it.  A missing file raises `FileNotFoundError`, a
malformed file raises a YAML error, and a successfully parsed file is
stored as-is: the constructor performs no validation of the column
definitions. -/

/-- One column entry as it appears in the parsed YAML; `name` and
`dtype` are optional because nothing forces the YAML author to supply
them. -/
structure RawColDef where
  name : Option String
  dtype : Option String
deriving DecidableEq, Repr

/-- The schema file as seen by `yaml.safe_load`: either unparseable or a
parsed list of column entries. -/
inductive SchemaFile where
  | malformed
  | parsed (columns : List RawColDef)
deriving DecidableEq, Repr

/-- Embeds `NGSIngestor.__init__`: `none` stands for an absent schema
file (the `open` call raises), `malformed` for a YAML parse failure,
and a parsed file is accepted without further checks. -/
def loadSchema : Option SchemaFile → Except String (List RawColDef)
  | none => Except.error "FileNotFoundError"
  | some SchemaFile.malformed => Except.error "YAMLError"
  | some (SchemaFile.parsed cols) => Except.ok cols

/-! ## The normalizer (`NGSIngestor.load_and_normalize`, lines 19-44) -/

/-- A validated column definition as consumed by the normalization
loop: `col_def['name']`, `getattr(pl, col_def['dtype'])`,
`col_def.get('aliases', [])`, `'default' in col_def`,
`col_def.get('allow_null', False)`. -/
structure ColDef where
  name : String
  dtype : DType
  aliases : List String := []
  default : Option Cell := none
  allow_null : Bool := false
deriving DecidableEq, Repr

structure Config where
  columns : List ColDef
deriving DecidableEq, Repr

/-- A raw CSV file after `pl.scan_csv`: named columns of cells plus the
frame height.  Type inference on the scan is not re-modelled: a column
whose text failed numeric inference is carried as `strv` cells, a
numeric column as `intv`/`floatv` cells. -/
structure RawTable where
  nrows : Nat
  cols : List (String × List Cell)
deriving DecidableEq, Repr

def RawTable.columnNames (t : RawTable) : List String := t.cols.map (fun c => c.1)

def RawTable.getCol (t : RawTable) (name : String) : Option (List Cell) :=
  (t.cols.find? (fun c => c.1 = name)).map (fun c => c.2)

/-- One entry of the lazy select list built by the loop: either
`pl.col(source).cast(dtype).alias(target)` or
`pl.lit(value).cast(dtype).alias(target)` (with `value = nullv` for
`pl.lit(None)`). -/
inductive NormExpr where
  | castCol (source : String) (dtype : DType) (target : String)
  | litCol (value : Cell) (dtype : DType) (target : String)
deriving DecidableEq, Repr

def NormExpr.target : NormExpr → String
  | NormExpr.castCol _ _ t => t
  | NormExpr.litCol _ _ t => t

/-- Resolution of one column definition against the file's actual
column names: `next((c for c in candidates if c in actual_columns), None)`
with `candidates = [target_name] + aliases`. -/
def resolveSource (colDef : ColDef) (actual : List String) : Option String :=
  (colDef.name :: colDef.aliases).find? (fun c => decide (c ∈ actual))

/-- The body of the per-column branch of `load_and_normalize`: resolved
columns are cast, otherwise a declared default wins, otherwise
`allow_null` yields a null literal, otherwise the column is skipped
(`continue`) with a warning. -/
def normExprFor (colDef : ColDef) (actual : List String) : Option NormExpr :=
  match resolveSource colDef actual with
  | some src => some (NormExpr.castCol src colDef.dtype colDef.name)
  | none =>
    match colDef.default with
    | some d => some (NormExpr.litCol d colDef.dtype colDef.name)
    | none =>
      if colDef.allow_null then some (NormExpr.litCol Cell.nullv colDef.dtype colDef.name)
      else none

/-- Embeds `load_and_normalize`: the select list built over the schema
columns in order.  Building the lazy plan itself never fails. -/
def load_and_normalize (cfg : Config) (raw : RawTable) : List NormExpr :=
  cfg.columns.filterMap (fun c => normExprFor c raw.columnNames)

/-- Strict cast of a whole column: any failing cell fails the column,
as polars' default strict cast does on collect. -/
def castColumn (dtype : DType) (cells : List Cell) : Option (List Cell) :=
  cells.mapM (castCell dtype)

/-- Materializes one select-list entry against the raw file. -/
def collectExpr (raw : RawTable) : NormExpr → Except String (String × List Cell)
  | NormExpr.castCol src dtype tgt =>
    match raw.getCol src with
    | none => Except.error ("ColumnNotFoundError: " ++ src)
    | some cells =>
      match castColumn dtype cells with
      | some out => Except.ok (tgt, out)
      | none => Except.error ("InvalidOperationError: conversion failed for " ++ tgt)
  | NormExpr.litCol v dtype tgt =>
    match castCell dtype v with
    | some c => Except.ok (tgt, List.replicate raw.nrows c)
    | none => Except.error ("InvalidOperationError: conversion failed for " ++ tgt)

/-- Embeds `.collect()` on the normalized lazy frame: every select-list
entry is materialized in order; the first error aborts the whole
collect, which is what the strict casts make polars do. -/
def collectPlan (raw : RawTable) : List NormExpr → Except String (List (String × List Cell))
  | [] => Except.ok []
  | e :: rest =>
    match collectExpr raw e with
    | Except.error msg => Except.error msg
    | Except.ok c =>
      match collectPlan raw rest with
      | Except.error msg => Except.error msg
      | Except.ok tbl => Except.ok (c :: tbl)

/-! ## The partitioned writer (`NGSIngestor.write_partitioned`, lines 59-87)

The writer receives a materialized normalized frame, groups it by
`gameId`, skips the null group, and writes each group to
`output_dir / ("season=" ++ season) / ("gameId=" ++ gameId) / "tracking.parquet"`
where `season = str(game_id)[:4]`, overwriting any existing file.  The
filesystem under the output root is embedded as an association list
from partition paths to file contents; `mkdir(exist_ok=True)` is a
no-op on this view and `write_parquet` is an overwrite. -/

/-- One row of a materialized normalized frame, as the writer sees it:
its (possibly null) `gameId` plus the remaining cell payload. -/
structure Row where
  gameId : Option Int
  payload : List Cell
deriving DecidableEq, Repr

/-- A partition's location under the output root.  The season directory
renders as `season=<season>` and the game directory as
`gameId=<toString gameId>`; since `toString` on the stored integer is
what the directory name carries, the integer itself is kept as the key
component. -/
structure PartPath where
  season : String
  gameId : Int
deriving DecidableEq, Repr

/-- Partition path derivation: `season = str(game_id)[:4]` (Python
string slicing, i.e. the first at-most-4 characters), then the game
identifier. -/
def pathOfGame (g : Int) : PartPath :=
  { season := String.mk ((toString g).data.take 4), gameId := g }

/-- The on-disk state under one output root: a finite-map view sending
each partition path to the rows of its `tracking.parquet` file, `none`
where no file exists. -/
def FS := PartPath → Option (List Row)

/-- An output root with no partition files yet. -/
def emptyFS : FS := fun _ => none

def getFile (fs : FS) (p : PartPath) : Option (List Row) := fs p

/-- Full-file overwrite at a path (what `write_parquet` to an existing
`tracking.parquet` does). -/
def setFile (fs : FS) (p : PartPath) (v : List Row) : FS :=
  Function.update fs p (some v)

/-- The distinct non-null game ids of a frame — the group keys the
writer iterates over after `if game_id is None: continue`. -/
def gameIdsOf (df : List Row) : List Int :=
  (df.filterMap Row.gameId).dedup

/-- The group frame for one game id: the rows of `df` carrying it. -/
def rowsForGame (df : List Row) (g : Int) : List Row :=
  df.filter (fun r => decide (r.gameId = some g))

/-- Embeds `write_partitioned`: one overwrite per distinct non-null
game id in the frame. -/
def write_partitioned (fs : FS) (df : List Row) : FS :=
  (gameIdsOf df).foldl (fun acc g => setFile acc (pathOfGame g) (rowsForGame df g)) fs

/-! ## The ingestion run (`NGSIngestor.run`, lines 89-115) -/

/-- The raw CSV files matched by `glob(input_path / "*.csv")`. -/
structure InputDir where
  csvFiles : List RawTable
deriving Repr

def tableGetRow (tbl : List (String × List Cell)) (i : Nat) : List Cell :=
  tbl.map (fun c => c.2.getD i Cell.nullv)

def tableGameId (tbl : List (String × List Cell)) (i : Nat) : Option Int :=
  match (List.find? (fun c => c.1 = "gameId") tbl).map (fun c => c.2) with
  | some cells =>
    match cells.getD i Cell.nullv with
    | Cell.intv g => some g
    | _ => none
  | none => none

/-- Reads a collected columnar frame back as writer rows. -/
def tableToRows (nrows : Nat) (tbl : List (String × List Cell)) : List Row :=
  (List.range nrows).map (fun i => { gameId := tableGameId tbl i, payload := tableGetRow tbl i })

/-- The body of the per-file loop in `run`: normalize and collect; an
exception is caught and the file skipped; a zero-row result is skipped;
a dry run skips the write; otherwise the frame is written. -/
def processFile (cfg : Config) (dryRun : Bool) (fs : FS) (raw : RawTable) : FS :=
  match collectPlan raw (load_and_normalize cfg raw) with
  | Except.error _ => fs
  | Except.ok tbl =>
    if raw.nrows = 0 then fs
    else if dryRun then fs
    else write_partitioned fs (tableToRows raw.nrows tbl)

/-- Embeds `NGSIngestor.run`: an empty glob raises `FileNotFoundError`
before any file is touched; otherwise the files are processed in
sequence. -/
def NGSIngestor.run (cfg : Config) (input : InputDir) (dryRun : Bool) (fs : FS) : Except String FS :=
  if input.csvFiles.isEmpty then Except.error "FileNotFoundError: No CSVs found"
  else Except.ok (input.csvFiles.foldl (processFile cfg dryRun) fs)

/-! ## The query engine (`GridironQuery`, `query.py`)

A pool root either exists or not; when it exists it holds a list of
partition (parquet) files, each a list of tracking rows.  The lazy
scan `pl.scan_parquet` over the recursive glob denotes the union of
the matched files' rows, but MATERIALIZING a scan whose glob matched
zero files raises: polars cannot derive a schema from zero parquet
sources, and neither the glob scan nor the directory-scan fallback in
`get_pool` avoids that.  `collectPool` embeds this fallible collect;
the sampler below works on the row denotation of the scan plan, and on
a zero-file store its first collect would raise in the code — a case
none of the sampling claims depend on. -/

/-- One tracking row as the query layer uses it: the compound play key
plus the entity marker (`nflId` is null for the ball). -/
structure PoolRow where
  gameId : Int
  playId : Int
  frameId : Int
  nflId : Option Int
deriving DecidableEq, Repr

structure PoolFS where
  rootExists : Bool
  parquetFiles : List (List PoolRow)
deriving Repr

/-- Embeds `GridironQuery.__init__` (`query.py` lines 6-11): raises
`FileNotFoundError` exactly when the resolved root does not exist. -/
def GridironQuery.init (fs : PoolFS) : Except String PoolFS :=
  if fs.rootExists then Except.ok fs
  else Except.error "FileNotFoundError: Data pool not found"

/-- Embeds `GridironQuery.get_pool` as a row denotation: the rows the
lazy scan plan over every partition file under the root would yield.
Building the lazy plan itself does not fail; materializing it does
when there are zero sources — that is `collectPool` below. -/
def get_pool (fs : PoolFS) : List PoolRow :=
  fs.parquetFiles.flatten

/-- Embeds `.collect()` on the pool scan: with zero matched parquet
files there is no footer to take a schema from and polars raises
(compute error, "expected at least 1 source"); otherwise the union of
the files' rows materializes. -/
def collectPool (fs : PoolFS) : Except String (List PoolRow) :=
  if fs.parquetFiles.isEmpty then
    Except.error "ComputeError: expected at least 1 source"
  else Except.ok fs.parquetFiles.flatten

def keyOf (r : PoolRow) : Int × Int := (r.gameId, r.playId)

/-- Sequential application of the supplied row-level predicates, as the
`for f in filters: q = q.filter(f)` loop does. -/
def applyFilters (filters : List (PoolRow → Bool)) (pool : List PoolRow) : List PoolRow :=
  filters.foldl (fun acc f => acc.filter f) pool

/-- The distinct (gameId, playId) keys of a frame:
`q.select(["gameId", "playId"]).unique().collect()`.  polars' `unique`
does not promise an output order; the model fixes one deterministic
order, which is all the claims need. -/
def keysOf (t : List PoolRow) : List (Int × Int) :=
  (t.map keyOf).dedup

def lcgNext (s : Nat) : Nat := (s * 1103515245 + 12345) % 2147483648

/-- Models polars `DataFrame.sample(n=n, seed=seed)` (sampling without
replacement): a seeded generator draws `n` distinct ROW POSITIONS, so
the positions drawn depend only on the height, `n` and the seed, and
the rows returned depend on the frame's row order. -/
def sampleSeeded : Nat → Nat → List α → List α
  | 0, _, _ => []
  | n + 1, s, xs =>
    if h : xs.length = 0 then []
    else
      let i := s % xs.length
      have hi : i < xs.length := Nat.mod_lt _ (Nat.pos_of_ne_zero h)
      xs.get ⟨i, hi⟩ :: sampleSeeded n (lcgNext s) (xs.eraseIdx i)

/-- The branch on `valid_keys.height < n` (`query.py` lines 49-52). -/
def selectedKeys (validKeys : List (Int × Int)) (n seed : Nat) : List (Int × Int) :=
  if validKeys.length < n then validKeys
  else sampleSeeded n seed validKeys

/-- Embeds `GridironQuery.sample_plays` (`query.py` lines 31-55): apply
the filters, collect the distinct keys, return empty when no key
matches, otherwise select keys (all of them, or a seeded sample of
`n`), and inner-join the filtered frame back against the selected keys
on (gameId, playId).  Since the selected keys are distinct, the inner
join is exactly the key-membership filter. -/
def sample_plays (fs : PoolFS) (n : Nat) (filters : List (PoolRow → Bool)) (seed : Nat) : List PoolRow :=
  let q := applyFilters filters (get_pool fs)
  let validKeys := keysOf q
  if validKeys.length = 0 then []
  else q.filter (fun r => decide (keyOf r ∈ selectedKeys validKeys n seed))

/-! ## Helper lemmas -/

theorem pathOfGame_injective {a b : Int} (h : pathOfGame a = pathOfGame b) : a = b := by
  have hg : (pathOfGame a).gameId = (pathOfGame b).gameId := by rw [h]
  simpa [pathOfGame] using hg

theorem getFile_setFile_same (fs : FS) (p : PartPath) (v : List Row) :
    getFile (setFile fs p v) p = some v := by
  simp [getFile, setFile]

theorem getFile_setFile_other (fs : FS) (p q : PartPath) (v : List Row) (h : q ≠ p) :
    getFile (setFile fs p v) q = getFile fs q := by
  simp [getFile, setFile, Function.update_noteq h]

/-- The step function of the writer's fold. -/
def writeStep (df : List Row) (acc : FS) (g : Int) : FS :=
  setFile acc (pathOfGame g) (rowsForGame df g)

theorem write_partitioned_eq_foldl (fs : FS) (df : List Row) :
    write_partitioned fs df = (gameIdsOf df).foldl (writeStep df) fs := rfl

theorem foldl_writeStep_frame (df : List Row) (p : PartPath) :
    ∀ (l : List Int) (fs : FS), (∀ g ∈ l, pathOfGame g ≠ p) →
      getFile (l.foldl (writeStep df) fs) p = getFile fs p
  | [], _, _ => rfl
  | g :: t, fs, h => by
    rw [List.foldl_cons]
    rw [foldl_writeStep_frame df p t _ (fun g2 hg2 => h g2 (List.mem_cons_of_mem _ hg2))]
    exact getFile_setFile_other fs (pathOfGame g) p (rowsForGame df g)
      (fun hpg => h g (List.mem_cons_self g t) hpg.symm)

theorem foldl_writeStep_mem (df : List Row) :
    ∀ (l : List Int) (fs : FS) (g : Int), l.Nodup → g ∈ l →
      getFile (l.foldl (writeStep df) fs) (pathOfGame g) = some (rowsForGame df g)
  | [], _, _, _, hg => absurd hg (List.not_mem_nil _)
  | a :: t, fs, g, hnd, hg => by
    rw [List.foldl_cons]
    rcases List.mem_cons.mp hg with hga | hgt
    · subst hga
      have hnotin : g ∉ t := (List.nodup_cons.mp hnd).1
      rw [foldl_writeStep_frame df (pathOfGame g) t _
        (fun g2 hg2 hpg => hnotin (pathOfGame_injective hpg ▸ hg2))]
      exact getFile_setFile_same fs (pathOfGame g) (rowsForGame df g)
    · exact foldl_writeStep_mem df t _ g (List.nodup_cons.mp hnd).2 hgt

theorem mem_gameIdsOf {df : List Row} {g : Int} :
    g ∈ gameIdsOf df ↔ some g ∈ df.map Row.gameId := by
  simp [gameIdsOf, List.mem_dedup, List.mem_filterMap, List.mem_map]

/-- The partition file written for a game present in the frame: exactly
that game's rows, independently of the prior state of the root. -/
theorem getFile_write_partitioned_mem (fs : FS) (df : List Row) (g : Int)
    (hg : g ∈ gameIdsOf df) :
    getFile (write_partitioned fs df) (pathOfGame g) = some (rowsForGame df g) :=
  foldl_writeStep_mem df (gameIdsOf df) fs g (List.nodup_dedup _) hg

/-- Paths of games absent from the frame are untouched by the writer. -/
theorem getFile_write_partitioned_frame (fs : FS) (df : List Row) (p : PartPath)
    (hp : ∀ g ∈ gameIdsOf df, pathOfGame g ≠ p) :
    getFile (write_partitioned fs df) p = getFile fs p :=
  foldl_writeStep_frame df p (gameIdsOf df) fs hp

theorem mem_rowsForGame {df : List Row} {g : Int} {r : Row} :
    r ∈ rowsForGame df g ↔ r ∈ df ∧ r.gameId = some g := by
  simp [rowsForGame, List.mem_filter]

/-! ### Normalizer helper lemmas -/

theorem collectExpr_ok_target {raw : RawTable} {e : NormExpr} {c : String × List Cell}
    (h : collectExpr raw e = Except.ok c) : c.1 = NormExpr.target e := by
  cases e with
  | castCol src dtype tgt =>
    simp only [collectExpr] at h
    split at h
    · cases h
    · split at h
      · cases h; rfl
      · cases h
  | litCol v dtype tgt =>
    simp only [collectExpr] at h
    split at h
    · cases h; rfl
    · cases h

theorem collectPlan_ok_names {raw : RawTable} :
    ∀ {plan : List NormExpr} {tbl : List (String × List Cell)},
      collectPlan raw plan = Except.ok tbl →
      tbl.map (fun c => c.1) = plan.map NormExpr.target
  | [], tbl, h => by
    cases h; rfl
  | e :: rest, tbl, h => by
    unfold collectPlan at h
    cases he : collectExpr raw e with
    | error msg => rw [he] at h; cases h
    | ok c =>
      rw [he] at h
      cases hrest : collectPlan raw rest with
      | error msg => rw [hrest] at h; cases h
      | ok tbl2 =>
        rw [hrest] at h
        cases h
        simp only [List.map_cons, collectExpr_ok_target he, collectPlan_ok_names hrest]

/-- A column definition with a default or allow_null always
contributes an entry to the select list, for every raw file. -/
theorem normPlan_contains (cfg : Config) (raw : RawTable) (colDef : ColDef)
    (hmem : colDef ∈ cfg.columns)
    (hda : colDef.default.isSome = true ∨ colDef.allow_null = true) :
    ∃ e ∈ load_and_normalize cfg raw, NormExpr.target e = colDef.name := by
  have hx : ∃ e, normExprFor colDef raw.columnNames = some e
      ∧ NormExpr.target e = colDef.name := by
    unfold normExprFor
    cases hres : resolveSource colDef raw.columnNames with
    | some src =>
      exact ⟨NormExpr.castCol src colDef.dtype colDef.name, rfl, rfl⟩
    | none =>
      cases hdef : colDef.default with
      | some d =>
        exact ⟨NormExpr.litCol d colDef.dtype colDef.name, rfl, rfl⟩
      | none =>
        have hnull : colDef.allow_null = true := by
          rcases hda with h1 | h1
          · rw [hdef] at h1; simp at h1
          · exact h1
        rw [hnull]
        exact ⟨NormExpr.litCol Cell.nullv colDef.dtype colDef.name, by simp, rfl⟩
  rcases hx with ⟨e, he, ht⟩
  exact ⟨e, List.mem_filterMap.mpr ⟨colDef, hmem, he⟩, ht⟩

/-! ### Query-side helper lemmas -/

/-- The (gameId, playId) key set of a materialized result. -/
def resultKeySet (t : List PoolRow) : Finset (Int × Int) :=
  (t.map keyOf).toFinset

theorem mem_keysOf {t : List PoolRow} {k : Int × Int} :
    k ∈ keysOf t ↔ ∃ r ∈ t, keyOf r = k := by
  simp [keysOf, List.mem_dedup, List.mem_map]

theorem sampleSeeded_subset : ∀ (n s : Nat) (xs : List α), sampleSeeded n s xs ⊆ xs
  | 0, _, _ => by simp [sampleSeeded]
  | n + 1, s, xs => by
    unfold sampleSeeded
    by_cases h : xs.length = 0
    · simp [h]
    · simp only [h]
      intro a ha
      rcases List.mem_cons.mp (by simpa using ha) with h1 | h2
      · exact h1 ▸ xs.getElem_mem _
      · exact List.eraseIdx_subset _ _ (sampleSeeded_subset n (lcgNext s) _ h2)

theorem selectedKeys_subset (validKeys : List (Int × Int)) (n seed : Nat) :
    selectedKeys validKeys n seed ⊆ validKeys := by
  unfold selectedKeys
  by_cases h : validKeys.length < n
  · simp [h]
  · simp only [h, if_false]
    exact sampleSeeded_subset n seed validKeys

/-- When at least one distinct key survives the filters, the key set of
the sampled result is exactly the selected key set. -/
theorem resultKeySet_sample_plays (fs : PoolFS) (n : Nat)
    (filters : List (PoolRow → Bool)) (seed : Nat)
    (h : keysOf (applyFilters filters (get_pool fs)) ≠ []) :
    resultKeySet (sample_plays fs n filters seed)
      = (selectedKeys (keysOf (applyFilters filters (get_pool fs))) n seed).toFinset := by
  have hlen : (keysOf (applyFilters filters (get_pool fs))).length ≠ 0 :=
    fun h0 => h (List.length_eq_zero.mp h0)
  unfold sample_plays
  simp only [hlen, if_false]
  ext k
  simp only [resultKeySet, List.mem_toFinset, List.mem_map, List.mem_filter,
    decide_eq_true_eq]
  constructor
  · rintro ⟨r, ⟨_, hsel⟩, hk⟩
    exact hk ▸ hsel
  · intro hk
    have hkv : k ∈ keysOf (applyFilters filters (get_pool fs)) :=
      selectedKeys_subset _ n seed hk
    rcases mem_keysOf.mp hkv with ⟨r, hr, hkr⟩
    exact ⟨r, ⟨hr, hkr ▸ hk⟩, hkr⟩

/-! ## Concrete fixtures for witnesses and counterexamples -/

/-- Two single-partition pools holding the same two plays, in opposite
row orders. -/
def poolA : PoolFS := ⟨true, [[⟨1, 1, 1, none⟩, ⟨1, 2, 1, none⟩]]⟩

def poolB : PoolFS := ⟨true, [[⟨1, 2, 1, none⟩, ⟨1, 1, 1, none⟩]]⟩

/-- A pool with one play spanning two frames. -/
def poolC : PoolFS := ⟨true, [[⟨1, 1, 1, none⟩, ⟨1, 1, 2, none⟩]]⟩

/-- A row-level predicate keeping only frame 1, as a `filters` entry. -/
def frameFilter : List (PoolRow → Bool) := [fun r => decide (r.frameId = 1)]

/-- A frame whose single game id has a 3-character decimal form. -/
def dfGame123 : List Row := [⟨some 123, []⟩]

/-- A frame with one placeable row and one row with a null game id. -/
def dfGame5 : List Row := [⟨some 5, []⟩, ⟨none, [Cell.intv 9]⟩]

/-- A root already holding a partition for game 7. -/
def fsWith7 : FS := setFile emptyFS (pathOfGame 7) [⟨some 7, []⟩]

/-- Schema and raw file for the strict-cast claim: one required int64
column whose text holds a non-numeric value. -/
def cfgC6 : Config := ⟨[⟨"gameId", DType.int64, [], none, false⟩]⟩

def rawC6 : RawTable := ⟨2, [("gameId", [Cell.strv "2022090800", Cell.strv "abc"])]⟩

/-- The spec's normalization-completeness scenario: `x` has default 0.0
and no alias matching `x_coord`; `event` allows null and is absent. -/
def cfgC7 : Config := ⟨[
  ⟨"gameId", DType.int64, [], none, false⟩,
  ⟨"playId", DType.int64, [], none, false⟩,
  ⟨"frameId", DType.int64, [], none, false⟩,
  ⟨"x", DType.float64, [], some (Cell.floatv 0 0), false⟩,
  ⟨"event", DType.string, [], none, true⟩]⟩

def rawC7 : RawTable := ⟨2, [
  ("gameId", [Cell.intv 2022090800, Cell.intv 2022090800]),
  ("playId", [Cell.intv 56, Cell.intv 56]),
  ("frameId", [Cell.intv 1, Cell.intv 2]),
  ("x_coord", [Cell.floatv 105 1, Cell.floatv 231 1])]⟩

/-! ## Claims -/

/-- Claim C1, counterexample to the claim as stated: `poolA` and
`poolB` have the same distinct (gameId, playId) key set under the same
(empty) filters, yet `sample_plays` with the same `n` and seed returns
different key sets, because the seeded sample draws row positions from
the distinct-key frame and the key order differs.  The keys drawn are
therefore not a function of the seed and the distinct key SET alone. -/
theorem claim1_counterexample :
    (keysOf (applyFilters [] (get_pool poolA))).toFinset
        = (keysOf (applyFilters [] (get_pool poolB))).toFinset
      ∧ resultKeySet (sample_plays poolA 1 [] 0)
        ≠ resultKeySet (sample_plays poolB 1 [] 0) := by
  decide

/-- Claim C1, amended: the key set returned by `sample_plays` is a
deterministic function of `n`, the seed and the ordered sequence of
distinct (gameId, playId) keys of the filtered pool — in particular two
calls with the same arguments against an unchanged pool return the
identical key set. -/
theorem claim1_sampling_determinism (fs1 fs2 : PoolFS) (n : Nat)
    (filters : List (PoolRow → Bool)) (seed : Nat)
    (h : keysOf (applyFilters filters (get_pool fs1))
        = keysOf (applyFilters filters (get_pool fs2))) :
    resultKeySet (sample_plays fs1 n filters seed)
      = resultKeySet (sample_plays fs2 n filters seed) := by
  by_cases hnil : keysOf (applyFilters filters (get_pool fs1)) = []
  · have hnil2 : keysOf (applyFilters filters (get_pool fs2)) = [] := h ▸ hnil
    unfold sample_plays
    simp [hnil, hnil2]
  · have hnil2 : keysOf (applyFilters filters (get_pool fs2)) ≠ [] := h ▸ hnil
    rw [resultKeySet_sample_plays fs1 n filters seed hnil,
      resultKeySet_sample_plays fs2 n filters seed hnil2, h]

/-- Claim C1, witness: the determinism theorem applied to an unchanged
concrete pool. -/
theorem claim1_witness :
    resultKeySet (sample_plays poolA 1 [] 0) = resultKeySet (sample_plays poolA 1 [] 0) :=
  claim1_sampling_determinism poolA poolA 1 [] 0 rfl

/-- Claim C2, counterexample to the claim as stated: with a row-level
filter keeping only frame 1, the play (1, 1) is returned by
`sample_plays` on `poolC`, yet the pool row of that play at frame 2 is
not in the result — the join-back runs against the FILTERED table, so a
filter that splits a play yields a partial play. -/
theorem claim2_counterexample :
    (1, 1) ∈ resultKeySet (sample_plays poolC 5 frameFilter 0)
      ∧ (⟨1, 1, 2, none⟩ : PoolRow) ∈ get_pool poolC
      ∧ keyOf ⟨1, 1, 2, none⟩ = (1, 1)
      ∧ (⟨1, 1, 2, none⟩ : PoolRow) ∉ sample_plays poolC 5 frameFilter 0 := by
  decide

/-- Claim C2, amended: for every key in the table returned by
`sample_plays`, every row of the FILTERED pool carrying that key is
present in the returned table. -/
theorem claim2_sampling_completeness (fs : PoolFS) (n : Nat)
    (filters : List (PoolRow → Bool)) (seed : Nat) (k : Int × Int) (r : PoolRow)
    (hk : k ∈ resultKeySet (sample_plays fs n filters seed))
    (hr : r ∈ applyFilters filters (get_pool fs))
    (hkey : keyOf r = k) :
    r ∈ sample_plays fs n filters seed := by
  by_cases hnil : keysOf (applyFilters filters (get_pool fs)) = []
  · exfalso
    unfold sample_plays at hk
    simp [hnil, resultKeySet] at hk
  · rw [resultKeySet_sample_plays fs n filters seed hnil] at hk
    have hksel := List.mem_toFinset.mp hk
    have hlen : ¬ (keysOf (applyFilters filters (get_pool fs))).length = 0 :=
      fun h0 => hnil (List.length_eq_zero.mp h0)
    unfold sample_plays
    simp only [if_neg hlen]
    exact List.mem_filter.mpr ⟨hr, by simp [hkey, hksel]⟩

/-- Claim C2, witness: the frame-1 row of the sampled play is in the
result. -/
theorem claim2_witness :
    (⟨1, 1, 1, none⟩ : PoolRow) ∈ sample_plays poolC 5 frameFilter 0 :=
  claim2_sampling_completeness poolC 5 frameFilter 0 (1, 1) ⟨1, 1, 1, none⟩
    (by decide) (by decide) rfl

/-- Claim C3: writing the same table twice leaves, for each gameId in
the table, the same partition file as writing it once, and that file
holds exactly the table's rows for that game regardless of the prior
state of the root — a partition write fully replaces any prior file at
the same key. -/
theorem claim3_idempotent_overwrite (fs : FS) (df : List Row) (g : Int)
    (hg : some g ∈ df.map Row.gameId) :
    getFile (write_partitioned (write_partitioned fs df) df) (pathOfGame g)
        = getFile (write_partitioned fs df) (pathOfGame g)
      ∧ getFile (write_partitioned fs df) (pathOfGame g) = some (rowsForGame df g) := by
  have hg2 : g ∈ gameIdsOf df := mem_gameIdsOf.mpr hg
  exact ⟨(getFile_write_partitioned_mem _ df g hg2).trans
      (getFile_write_partitioned_mem fs df g hg2).symm,
    getFile_write_partitioned_mem fs df g hg2⟩

/-- Claim C3, witness: double-write equals single write on a concrete
frame. -/
theorem claim3_witness :
    getFile (write_partitioned (write_partitioned emptyFS dfGame123) dfGame123) (pathOfGame 123)
        = getFile (write_partitioned emptyFS dfGame123) (pathOfGame 123)
      ∧ getFile (write_partitioned emptyFS dfGame123) (pathOfGame 123)
        = some (rowsForGame dfGame123 123) :=
  claim3_idempotent_overwrite emptyFS dfGame123 123 (by decide)

/-- Claim C4, counterexample to the claim as stated: game id 123 is
written to a partition whose season component is `str(123)[:4] = "123"`,
which has 3 characters, not the claimed fixed width of 4. -/
theorem claim4_counterexample :
    123 ∈ gameIdsOf dfGame123
      ∧ getFile (write_partitioned emptyFS dfGame123) (pathOfGame 123) = some dfGame123
      ∧ (pathOfGame 123).season.length ≠ 4 := by
  decide

/-- Claim C4, amended: every record written for a game carries exactly
that partition's gameId; the season component is the first AT MOST four
characters of the game identifier's decimal form (a prefix of it, of
exactly four characters only when the identifier has at least four
digits); and rows with a null gameId are written to no partition. -/
theorem claim4_partition_key_integrity (fs : FS) (df : List Row) :
    (∀ g ∈ gameIdsOf df,
        getFile (write_partitioned fs df) (pathOfGame g) = some (rowsForGame df g)
          ∧ (∀ r ∈ rowsForGame df g, r.gameId = some (pathOfGame g).gameId)
          ∧ (pathOfGame g).season.data = (toString g).data.take 4
          ∧ ∃ rest, (pathOfGame g).season.data ++ rest = (toString g).data)
      ∧ ∀ r ∈ df, r.gameId = none → ∀ g ∈ gameIdsOf df, r ∉ rowsForGame df g := by
  constructor
  · intro g hg
    refine ⟨getFile_write_partitioned_mem fs df g hg, ?_, rfl, ?_⟩
    · intro r hr
      exact (mem_rowsForGame.mp hr).2
    · exact ⟨(toString g).data.drop 4, List.take_append_drop 4 _⟩
  · rintro r _ hnone g _ hmem
    have h2 := (mem_rowsForGame.mp hmem).2
    rw [hnone] at h2
    exact Option.noConfusion h2

/-- Claim C4, witness: the amended integrity facts at a concrete frame
containing a null-gameId row. -/
theorem claim4_witness :
    getFile (write_partitioned emptyFS dfGame5) (pathOfGame 5) = some (rowsForGame dfGame5 5) :=
  ((claim4_partition_key_integrity emptyFS dfGame5).1 5 (by decide)).1

/-- Claim C5, counterexample to the claim as stated: on an existing but
empty root the constructor succeeds, but collecting the pool scan
RAISES instead of returning a zero-row table — a scan with zero
parquet sources has no file footer to derive a schema from. -/
theorem claim5_counterexample :
    GridironQuery.init ⟨true, []⟩ = Except.ok (⟨true, []⟩ : PoolFS)
      ∧ ∃ e, collectPool ⟨true, []⟩ = Except.error e :=
  ⟨rfl, ⟨"ComputeError: expected at least 1 source", rfl⟩⟩

/-- Claim C5, amended: constructing the query engine fails with a
file-not-found error exactly when the pool root does not exist; on an
existing root construction succeeds regardless of content, but with
zero partition files the collect of the pool scan raises (so
"configured but empty" surfaces as a collect-time error, not as a
zero-row table), while with at least one partition file the collect
yields the union of the files' rows. -/
theorem claim5_open_pool_contract (fs : PoolFS) :
    ((GridironQuery.init fs).isOk = true ↔ fs.rootExists = true)
      ∧ (fs.rootExists = true → fs.parquetFiles = [] →
          GridironQuery.init fs = Except.ok fs ∧ ∃ e, collectPool fs = Except.error e)
      ∧ (fs.parquetFiles ≠ [] → collectPool fs = Except.ok (get_pool fs)) := by
  refine ⟨?_, ?_, ?_⟩
  · by_cases h : fs.rootExists
    · simp [GridironQuery.init, h, Except.isOk, Except.toBool]
    · simp [GridironQuery.init, h, Except.isOk, Except.toBool]
  · intro hroot hempty
    refine ⟨by simp [GridironQuery.init, hroot], ?_⟩
    exact ⟨"ComputeError: expected at least 1 source", by simp [collectPool, hempty]⟩
  · intro h
    unfold collectPool
    rw [if_neg]
    · rfl
    · simpa using h

/-- Claim C5, witness: both branches of the amended contract at
concrete pools — an existing empty root errors at collect, a root with
one partition file collects to its rows. -/
theorem claim5_witness :
    (GridironQuery.init ⟨true, []⟩ = Except.ok (⟨true, []⟩ : PoolFS)
        ∧ ∃ e, collectPool ⟨true, []⟩ = Except.error e)
      ∧ collectPool poolA = Except.ok (get_pool poolA) :=
  ⟨(claim5_open_pool_contract ⟨true, []⟩).2.1 rfl rfl,
    (claim5_open_pool_contract poolA).2.2 (by decide)⟩

/-- Claim C6: evaluation of the code at the failing input.  The cell
value `"abc"` fails to convert to int64, and because the source uses
the library's default STRICT cast, collecting the normalized frame
fails for the whole file instead of degrading that cell to null. -/
theorem claim6_strict_cast_aborts_file :
    castCell DType.int64 (Cell.strv "abc") = none
      ∧ ∃ e, collectPlan rawC6 (load_and_normalize cfgC6 rawC6) = Except.error e :=
  ⟨rfl, ⟨"InvalidOperationError: conversion failed for gameId", rfl⟩⟩

/-- Claim C7: for every column definition with a default or allow_null,
the normalization plan of any raw file contains that column; when no
candidate name matches, a declared default takes priority over
null-filling; and in the spec's scenario the unresolved column `x`
(default 0.0) materializes entirely as 0.0 and the absent allow_null
column `event` entirely as null, with no error. -/
theorem claim7_normalization_completeness :
    (∀ (cfg : Config) (raw : RawTable) (colDef : ColDef), colDef ∈ cfg.columns →
        (colDef.default.isSome = true ∨ colDef.allow_null = true) →
        ∃ e ∈ load_and_normalize cfg raw, NormExpr.target e = colDef.name)
      ∧ (∀ (cfg : Config) (raw : RawTable) (colDef : ColDef) (d : Cell),
          colDef ∈ cfg.columns → resolveSource colDef raw.columnNames = none →
          colDef.default = some d →
          NormExpr.litCol d colDef.dtype colDef.name ∈ load_and_normalize cfg raw)
      ∧ (∀ (cfg : Config) (raw : RawTable) (colDef : ColDef)
          (tbl : List (String × List Cell)), colDef ∈ cfg.columns →
          (colDef.default.isSome = true ∨ colDef.allow_null = true) →
          collectPlan raw (load_and_normalize cfg raw) = Except.ok tbl →
          colDef.name ∈ tbl.map (fun c => c.1))
      ∧ collectPlan rawC7 (load_and_normalize cfgC7 rawC7) = Except.ok [
          ("gameId", [Cell.intv 2022090800, Cell.intv 2022090800]),
          ("playId", [Cell.intv 56, Cell.intv 56]),
          ("frameId", [Cell.intv 1, Cell.intv 2]),
          ("x", [Cell.floatv 0 0, Cell.floatv 0 0]),
          ("event", [Cell.nullv, Cell.nullv])] := by
  refine ⟨normPlan_contains, ?_, ?_, rfl⟩
  · intro cfg raw colDef d hmem hres hdef
    apply List.mem_filterMap.mpr
    refine ⟨colDef, hmem, ?_⟩
    unfold normExprFor
    rw [hres, hdef]
  · intro cfg raw colDef tbl hmem hda hok
    rcases normPlan_contains cfg raw colDef hmem hda with ⟨e, he, ht⟩
    rw [collectPlan_ok_names hok]
    exact ht ▸ List.mem_map_of_mem NormExpr.target he

/-- Claim C7, witness: the default-priority part applied to the
scenario's column `x`. -/
theorem claim7_witness :
    NormExpr.litCol (Cell.floatv 0 0) DType.float64 "x" ∈ load_and_normalize cfgC7 rawC7 :=
  claim7_normalization_completeness.2.1 cfgC7 rawC7
    ⟨"x", DType.float64, [], some (Cell.floatv 0 0), false⟩ (Cell.floatv 0 0)
    (by decide) rfl rfl

/-- Claim C8, counterexample to the claim as stated: a well-formed
schema file whose single column definition lacks a dtype is loaded
successfully by the constructor — no error is raised at load time. -/
theorem claim8_counterexample :
    loadSchema (some (SchemaFile.parsed [⟨some "x", none⟩]))
        = Except.ok [⟨some "x", none⟩]
      ∧ (⟨some "x", none⟩ : RawColDef).dtype = none :=
  ⟨rfl, rfl⟩

/-- Claim C8, amended: loading the schema fails exactly when the file
is absent or malformed; a column definition lacking a name or dtype is
NOT rejected at load time (the constructor performs no validation). -/
theorem claim8_schema_load (f : Option SchemaFile) :
    (loadSchema f).isOk = true ↔ ∃ cols, f = some (SchemaFile.parsed cols) := by
  cases f with
  | none => simp [loadSchema, Except.isOk, Except.toBool]
  | some sf =>
    cases sf with
    | malformed => simp [loadSchema, Except.isOk, Except.toBool]
    | parsed cols => simp [loadSchema, Except.isOk, Except.toBool]

/-- Claim C8, witness: the amended load contract at a concrete parsed
file. -/
theorem claim8_witness :
    (loadSchema (some (SchemaFile.parsed []))).isOk = true
      ↔ ∃ cols, some (SchemaFile.parsed []) = some (SchemaFile.parsed cols) :=
  claim8_schema_load (some (SchemaFile.parsed []))

/-- Claim C9: an input directory with zero CSV files makes the run
raise `FileNotFoundError` before processing anything, instead of
completing silently as an empty run. -/
theorem claim9_empty_input_fatal (cfg : Config) (input : InputDir) (dryRun : Bool) (fs : FS)
    (h : input.csvFiles = []) :
    NGSIngestor.run cfg input dryRun fs = Except.error "FileNotFoundError: No CSVs found" := by
  unfold NGSIngestor.run
  simp [h]

/-- Claim C9, witness: the empty-input error at concrete arguments. -/
theorem claim9_witness :
    NGSIngestor.run ⟨[]⟩ ⟨[]⟩ false emptyFS
      = Except.error "FileNotFoundError: No CSVs found" :=
  claim9_empty_input_fatal ⟨[]⟩ ⟨[]⟩ false emptyFS rfl

/-- Claim C10: `write_partitioned` creates or overwrites only the
partitions of games occurring (non-null) in the table; every other
path under the output root keeps exactly its previous content. -/
theorem claim10_write_frame_effect (fs : FS) (df : List Row) (p : PartPath)
    (hp : ∀ g : Int, some g ∈ df.map Row.gameId → pathOfGame g ≠ p) :
    getFile (write_partitioned fs df) p = getFile fs p :=
  getFile_write_partitioned_frame fs df p (fun g hg => hp g (mem_gameIdsOf.mp hg))

/-- Claim C10, witness: re-ingesting game 5 leaves game 7's existing
partition untouched. -/
theorem claim10_witness :
    getFile (write_partitioned fsWith7 dfGame5) (pathOfGame 7)
      = getFile fsWith7 (pathOfGame 7) :=
  claim10_write_frame_effect fsWith7 dfGame5 (pathOfGame 7) (by
    intro g hg
    have hg5 : g = 5 := by simpa [dfGame5] using hg
    subst hg5
    decide)

end Gridiron
